import Mathlib

/-!
Verification of the smart-meeting-scheduler core.

The source is a Go service.  The core algorithm lives in
`pkg/algorithm/scheduler.go` (slot enumeration, availability test, scoring,
selection) and the request validator plus the service orchestration live in
`internal/service` (`validateScheduleRequest`, `Schedule`).

Embedding choices:
* `time.Time` instants are modelled as integer minutes (UTC) since the Go
  zero time (January 1, year 1, 00:00 UTC), so `t.IsZero()` is `t = 0`,
  `Before`/`After` are `<`/`>`, `Add` of a minute duration is `+`, and
  `Sub(..).Minutes()` is integer subtraction.  `t.Hour()` is
  `(t % 1440) / 60`.  All data in the repository's tests and spec is at
  minute granularity.
* `float64` scores are modelled as exact rationals.
* The Go `map[string][]CalendarEvent` is modelled as an association list
  `List (String × List CalendarEvent)`.
* `sort.Slice` with comparator `Score[i] > Score[j]` is modelled
  relationally: Go's sort returns an already-sorted slice unchanged (its
  sorted-run detection fast path does this for every length), and otherwise
  guarantees only some reordering consistent with the comparator — the Go
  documentation states the sort is not guaranteed to be stable.
-/

namespace MeetingScheduler

/-- `time.Time.Hour()` for an instant given in minutes (UTC) since the Go
zero `time.Time`: the hour of the day, minutes ignored. -/
def instantHour (t : Int) : Int :=
  t % 1440 / 60

/-- `domain.CalendarEvent` (`internal/domain/models.go`); the gorm
bookkeeping timestamps `CreatedAt`/`UpdatedAt` carry no scheduling
information and are omitted. -/
structure CalendarEvent where
  id : String
  title : String
  startTime : Int
  endTime : Int
  userID : String
deriving DecidableEq

/-- `domain.TimeRange`; the Go field `End` is called `stop` here. -/
structure TimeRange where
  start : Int
  stop : Int
deriving DecidableEq

/-- `domain.ScheduleRequest`. -/
structure ScheduleRequest where
  participantIDs : List String
  durationMinutes : Int
  timeRange : TimeRange
  title : String
deriving DecidableEq

/-- `domain.ScheduleResponse`. -/
structure ScheduleResponse where
  meetingID : String
  title : String
  participantIDs : List String
  startTime : Int
  endTime : Int
deriving DecidableEq

/-- `domain.User`; timestamps omitted as for events. -/
structure User where
  id : String
  name : String
deriving DecidableEq

/-- `domain.NewCalendarEvent`; the generated uuid is passed in as `id`
since identifier generation is external randomness. -/
def NewCalendarEvent (id title : String) (startTime endTime : Int)
    (userID : String) : CalendarEvent :=
  { id := id, title := title, startTime := startTime, endTime := endTime,
    userID := userID }

/-- `algorithm.TimeSlot` (`pkg/algorithm/scheduler.go`). -/
structure TimeSlot where
  start : Int
  stop : Int
  score : ℚ
deriving DecidableEq

/- Constants from `pkg/algorithm/scheduler.go`. -/

def workingHoursWeight : ℚ := 1.0

def earlySlotWeight : ℚ := 0.8

def gapMinimizationWeight : ℚ := 0.6

def bufferTimeWeight : ℚ := 0.4

def desiredBufferTime : Int := 15

def workDayStart : Int := 9

def workDayEnd : Int := 17

/-- `algorithm.isSlotAvailable`: a slot is available when every busy
interval of every participant satisfies
`end.Before(event.StartTime) || start.After(event.EndTime)`. -/
def isSlotAvailable (start stop : Int)
    (events : List (String × List CalendarEvent)) : Bool :=
  events.all fun userEvents =>
    userEvents.2.all fun event =>
      decide (stop < event.startTime) || decide (start > event.endTime)

/-- The loop body of `algorithm.findAvailableSlots`: starting at `current`,
step in 15-minute increments while `current < stopT`, admitting the slot
`[current, current+dur)` when `slotEnd.Before(end)` and it is available.
The Go loop advances `current` by 15 every iteration, so it performs at
most `(stopT - start).toNat` iterations; `fuel` bounds the iteration count
(`mem_findAvailableSlots` below confirms the fuel supplied by
`findAvailableSlots` covers the whole window). -/
def findSlotsAux (stopT dur : Int)
    (events : List (String × List CalendarEvent)) :
    Nat → Int → List TimeSlot
  | 0, _ => []
  | fuel + 1, current =>
    if current < stopT then
      (if current + dur < stopT ∧
          isSlotAvailable current (current + dur) events = true then
        [⟨current, current + dur, 0⟩]
      else []) ++ findSlotsAux stopT dur events fuel (current + 15)
    else []

/-- `algorithm.findAvailableSlots`. -/
def findAvailableSlots (req : ScheduleRequest)
    (events : List (String × List CalendarEvent)) : List TimeSlot :=
  findSlotsAux req.timeRange.stop req.durationMinutes events
    (req.timeRange.stop - req.timeRange.start).toNat req.timeRange.start

/-- `algorithm.workingHoursScore`. -/
def workingHoursScore (slot : TimeSlot) : ℚ :=
  let hour := instantHour slot.start
  if workDayStart ≤ hour ∧ hour < workDayEnd then 1.0
  else if (workDayStart - 1 ≤ hour ∧ hour < workDayStart) ∨
      (workDayEnd ≤ hour ∧ hour < workDayEnd + 1) then 0.5
  else 0.0

/-- `algorithm.earlySlotScore`: the integer hour is converted to a float
before the comparisons and the linear decay. -/
def earlySlotScore (slot : TimeSlot) : ℚ :=
  let hour : ℚ := (instantHour slot.start : Int)
  if (workDayStart : ℚ) ≤ hour ∧ hour ≤ (workDayEnd : ℚ) then
    1.0 - (hour - (workDayStart : ℚ)) / ((workDayEnd - workDayStart : Int) : ℚ)
  else 0.0

/-- `algorithm.gapMinimizationScore`: per participant, fold an accumulator
starting at 1.0 over that participant's events, halving it for gaps below
`desiredBufferTime` and scaling by 0.8 for gaps above 60 minutes, on each
side of the slot; then average over participants (1.0 when there are
none). -/
def gapMinimizationScore (slot : TimeSlot)
    (events : List (String × List CalendarEvent)) : ℚ :=
  let perUser : List CalendarEvent → ℚ := fun userEvents =>
    userEvents.foldl
      (fun score event =>
        let score :=
          if event.endTime < slot.start then
            let gap := slot.start - event.endTime
            if gap < desiredBufferTime then score * 0.5
            else if 60 < gap then score * 0.8
            else score
          else score
        if slot.stop < event.startTime then
          let gap := event.startTime - slot.stop
          if gap < desiredBufferTime then score * 0.5
          else if 60 < gap then score * 0.8
          else score
        else score)
      1.0
  if events.length = 0 then 1.0
  else (events.map fun userEvents => perUser userEvents.2).sum /
    (events.length : ℚ)

/-- `algorithm.bufferTimeScore`: like `gapMinimizationScore` but a gap
below `desiredBufferTime` scales the accumulator by `gap / 15` and larger
gaps leave it unchanged. -/
def bufferTimeScore (slot : TimeSlot)
    (events : List (String × List CalendarEvent)) : ℚ :=
  let perUser : List CalendarEvent → ℚ := fun userEvents =>
    userEvents.foldl
      (fun score event =>
        let score :=
          if event.endTime < slot.start then
            let bufferBefore := slot.start - event.endTime
            if bufferBefore < desiredBufferTime then
              score * ((bufferBefore : ℚ) / (desiredBufferTime : ℚ))
            else score
          else score
        if slot.stop < event.startTime then
          let bufferAfter := event.startTime - slot.stop
          if bufferAfter < desiredBufferTime then
            score * ((bufferAfter : ℚ) / (desiredBufferTime : ℚ))
          else score
        else score)
      1.0
  if events.length = 0 then 1.0
  else (events.map fun userEvents => perUser userEvents.2).sum /
    (events.length : ℚ)

/-- `algorithm.calculateSlotScore`. -/
def calculateSlotScore (slot : TimeSlot)
    (events : List (String × List CalendarEvent)) : ℚ :=
  workingHoursScore slot * workingHoursWeight
    + earlySlotScore slot * earlySlotWeight
    + gapMinimizationScore slot events * gapMinimizationWeight
    + bufferTimeScore slot events * bufferTimeWeight

/-- `algorithm.scoreSlots`. -/
def scoreSlots (slots : List TimeSlot)
    (events : List (String × List CalendarEvent)) : List TimeSlot :=
  slots.map fun s => { s with score := calculateSlotScore s events }

/-- The slice is sorted for the comparator
`func(i, j) bool := Score[i] > Score[j]`: no adjacent pair is strictly
out of order. -/
def scoreSortedDesc (l : List TimeSlot) : Prop :=
  List.Chain' (fun a b => b.score ≤ a.score) l

/-- Relational model of `sort.Slice(scoredSlots, Score[i] > Score[j])`:
an already-sorted slice is returned unchanged (Go's sorted-run detection
does this at every length), and otherwise the result is some permutation
sorted for the comparator — Go documents the sort as not guaranteed to be
stable, so nothing more is promised about the order of equal scores. -/
def sortSliceByScore (l result : List TimeSlot) : Prop :=
  (scoreSortedDesc l ∧ result = l) ∨
    (¬ scoreSortedDesc l ∧ result.Perm l ∧ scoreSortedDesc result)

/-- Relational model of `algorithm.FindOptimalSlot`; the pair is the Go
return value `(*TimeSlot, error)`. -/
def FindOptimalSlot (req : ScheduleRequest)
    (events : List (String × List CalendarEvent))
    (out : Option TimeSlot × Option String) : Prop :=
  let availableSlots := findAvailableSlots req events
  (availableSlots = [] ∧ out = (none, none)) ∨
    (availableSlots ≠ [] ∧
      ∃ sorted, sortSliceByScore (scoreSlots availableSlots events) sorted ∧
        ∃ s, sorted.head? = some s ∧ out = (some s, none))

/-- The single pass of `validateScheduleRequest` over the participant list
(`internal/service`, `part_001`): each identifier is first tested for
emptiness, then against the already-seen set. -/
def checkParticipants : List String → List String → Option String
  | _, [] => none
  | seen, id :: rest =>
    if id = "" then some "participant ID cannot be empty"
    else if id ∈ seen then some "duplicate participant IDs are not allowed"
    else checkParticipants (id :: seen) rest

/-- `now.AddDate(1, 0, 0)` adds one calendar year; at minute granularity it
is modelled as a fixed 365-day year, which no claim's inputs are sensitive
to. -/
def oneYearMinutes : Int := 525600

/-- `validateScheduleRequest` (`internal/service`, `part_001`), with the
wall clock `time.Now()` passed in as `now`.  The result is the error
message, or `none` on success. -/
def validateScheduleRequest (req : ScheduleRequest) (now : Int) :
    Option String :=
  if req.participantIDs.length = 0 then
    some "at least one participant is required"
  else
    match checkParticipants [] req.participantIDs with
    | some msg => some msg
    | none =>
      if req.durationMinutes ≤ 0 then
        some "duration must be greater than 0 minutes"
      else if 480 < req.durationMinutes then
        some "duration cannot exceed 8 hours (480 minutes)"
      else if req.timeRange.start = 0 then
        some "start time is required"
      else if req.timeRange.stop = 0 then
        some "end time is required"
      else if req.timeRange.stop < req.timeRange.start then
        some "start time must be before end time"
      else if req.timeRange.start < now then
        some "start time cannot be in the past. Please enter a valid future start date."
      else if now + oneYearMinutes < req.timeRange.stop then
        some "end time cannot be more than 1 year in the future"
      else if req.timeRange.stop < req.timeRange.start + req.durationMinutes then
        some "duration does not fit within the specified time range"
      else none

/-- The error family of `internal/service`: the four sentinel-style
outcomes the `Schedule` path can surface.  Validation failures are the
fresh message errors returned by `validateScheduleRequest`. -/
inductive SchedErr where
  | validation (msg : String)
  | userNotFound
  | internalError
  | noAvailableSlot
deriving DecidableEq

/-- The repository interface consumed by the service, as pure oracles:
`none`/`false` stand for the error returns. -/
structure Repository where
  getUser : String → Option User
  getUserEvents : String → Int → Int → Option (List CalendarEvent)
  createEvent : CalendarEvent → Bool

/-- The event-fetch loop of `Schedule`: the busy intervals of each
participant over the request window, or `none` if any fetch fails. -/
def fetchAllEvents (repo : Repository) (req : ScheduleRequest) :
    Option (List (String × List CalendarEvent)) :=
  req.participantIDs.mapM fun userID =>
    (repo.getUserEvents userID req.timeRange.start req.timeRange.stop).map
      fun events => (userID, events)

/-- Relational model of `service.Schedule` (`part_001`): validate, check
all participants exist, fetch all busy intervals, run `FindOptimalSlot`,
and either surface `noAvailableSlot` or create the per-participant events
and answer with the response.  `newID` stands for the generated meeting
uuid and `genEventID` for the per-event uuids. -/
def Schedule (repo : Repository) (now : Int) (newID : String)
    (genEventID : String → String) (req : ScheduleRequest)
    (outcome : Except SchedErr ScheduleResponse) : Prop :=
  match validateScheduleRequest req now with
  | some e => outcome = Except.error (SchedErr.validation e)
  | none =>
    if (req.participantIDs.all fun userID => (repo.getUser userID).isSome) = true then
      match fetchAllEvents repo req with
      | none => outcome = Except.error SchedErr.internalError
      | some allEvents =>
        ∃ res err, FindOptimalSlot req allEvents (res, err) ∧
          match err with
          | some _ => outcome = Except.error SchedErr.internalError
          | none =>
            match res with
            | none => outcome = Except.error SchedErr.noAvailableSlot
            | some slot =>
              let meetingTitle := if req.title = "" then "New Meeting" else req.title
              if (req.participantIDs.all fun userID =>
                  repo.createEvent
                    (NewCalendarEvent (genEventID userID) meetingTitle
                      slot.start slot.stop userID)) = true then
                outcome = Except.ok
                  { meetingID := newID, title := meetingTitle,
                    participantIDs := req.participantIDs,
                    startTime := slot.start, endTime := slot.stop }
              else outcome = Except.error SchedErr.internalError
    else outcome = Except.error SchedErr.userNotFound


/-! ## General lemmas about the embedded definitions -/

/-- The availability test in propositional form: a slot is available
exactly when every busy interval of every participant either starts
strictly after the slot ends or ends strictly before the slot starts. -/
theorem isSlotAvailable_iff (start stop : Int)
    (events : List (String × List CalendarEvent)) :
    isSlotAvailable start stop events = true ↔
      ∀ p ∈ events, ∀ ev ∈ p.2, stop < ev.startTime ∨ ev.endTime < start := by
  simp [isSlotAvailable, List.all_eq_true, gt_iff_lt]

/-- Characterization of the enumeration loop: provided the fuel covers the
whole window, the produced slots are exactly the 15-minute grid starts from
`current` that fit strictly inside the window and are available. -/
theorem mem_findSlotsAux (stopT dur : Int)
    (events : List (String × List CalendarEvent)) :
    ∀ (fuel : Nat) (current : Int), stopT ≤ current + 15 * (fuel : Int) →
      ∀ s : TimeSlot, (s ∈ findSlotsAux stopT dur events fuel current ↔
        ∃ k : Nat, s.start = current + 15 * (k : Int) ∧ s.stop = s.start + dur ∧
          s.score = 0 ∧ s.start < stopT ∧ s.stop < stopT ∧
          isSlotAvailable s.start s.stop events = true) := by
  intro fuel
  induction fuel with
  | zero =>
    intro current hfuel s
    simp only [Nat.cast_zero, mul_zero, add_zero] at hfuel
    simp only [findSlotsAux, List.not_mem_nil, false_iff, not_exists]
    rintro k ⟨hstart, -, -, hlt, -, -⟩
    have hk : (0 : Int) ≤ 15 * (k : Int) := by positivity
    omega
  | succ fuel ih =>
    intro current hfuel s
    have hfuel2 : stopT ≤ current + 15 + 15 * (fuel : Int) := by
      push_cast at hfuel
      omega
    by_cases hcur : current < stopT
    · rw [findSlotsAux, if_pos hcur]
      have hrec := ih (current + 15) hfuel2 s
      by_cases hcond : current + dur < stopT ∧
          isSlotAvailable current (current + dur) events = true
      · rw [if_pos hcond]
        simp only [List.cons_append, List.nil_append, List.mem_cons, hrec]
        constructor
        · rintro (rfl | ⟨k, hstart, hrest⟩)
          · exact ⟨0, by simp, rfl, rfl, hcur, hcond.1, hcond.2⟩
          · refine ⟨k + 1, ?_, hrest⟩
            push_cast at hstart ⊢
            omega
        · rintro ⟨k, hstart, hstop, hscore, hlt, hstop2, havail⟩
          rcases k with _ | k
          · left
            simp only [Nat.cast_zero, mul_zero, add_zero] at hstart
            obtain ⟨st, sp, sc⟩ := s
            simp only at hstart hstop hscore
            subst hstart
            subst hscore
            subst hstop
            rfl
          · right
            refine ⟨k, ?_, hstop, hscore, hlt, hstop2, havail⟩
            push_cast at hstart ⊢
            omega
      · rw [if_neg hcond]
        simp only [List.nil_append, hrec]
        constructor
        · rintro ⟨k, hstart, hrest⟩
          refine ⟨k + 1, ?_, hrest⟩
          push_cast at hstart ⊢
          omega
        · rintro ⟨k, hstart, hstop, hscore, hlt, hstop2, havail⟩
          rcases k with _ | k
          · exfalso
            simp only [Nat.cast_zero, mul_zero, add_zero] at hstart
            rw [hstop, hstart] at havail
            exact hcond ⟨by omega, havail⟩
          · refine ⟨k, ?_, hstop, hscore, hlt, hstop2, havail⟩
            push_cast at hstart ⊢
            omega
    · rw [findSlotsAux, if_neg hcur]
      simp only [List.not_mem_nil, false_iff, not_exists]
      rintro k ⟨hstart, -, -, hlt, -, -⟩
      have hk : (0 : Int) ≤ 15 * (k : Int) := by positivity
      omega

/-- The enumeration loop yields slots in strictly ascending start order,
and every produced slot starts no earlier than the loop counter. -/
theorem findSlotsAux_sorted (stopT dur : Int)
    (events : List (String × List CalendarEvent)) :
    ∀ (fuel : Nat) (current : Int),
      List.Pairwise (fun a b : TimeSlot => a.start < b.start)
        (findSlotsAux stopT dur events fuel current) ∧
      ∀ s ∈ findSlotsAux stopT dur events fuel current, current ≤ s.start := by
  intro fuel
  induction fuel with
  | zero =>
    intro current
    constructor
    · rw [findSlotsAux]
      exact List.Pairwise.nil
    · rw [findSlotsAux]
      intro s hs
      exact absurd hs (List.not_mem_nil s)
  | succ fuel ih =>
    intro current
    by_cases hcur : current < stopT
    · rw [findSlotsAux, if_pos hcur]
      obtain ⟨hpair, hbound⟩ := ih (current + 15)
      by_cases hcond : current + dur < stopT ∧
          isSlotAvailable current (current + dur) events = true
      · rw [if_pos hcond]
        simp only [List.cons_append, List.nil_append, List.pairwise_cons,
          List.mem_cons]
        refine ⟨⟨fun t ht => ?_, hpair⟩, ?_⟩
        · have hb := hbound t ht
          show current < t.start
          omega
        · rintro s (rfl | hs)
          · exact le_refl current
          · have hb := hbound s hs
            omega
      · rw [if_neg hcond]
        simp only [List.nil_append]
        refine ⟨hpair, fun s hs => ?_⟩
        have hb := hbound s hs
        omega
    · rw [findSlotsAux, if_neg hcur]
      constructor
      · exact List.Pairwise.nil
      · intro s hs
        exact absurd hs (List.not_mem_nil s)

/-- Characterization of `findAvailableSlots`: exactly the candidates the
spec describes, via `mem_findSlotsAux` at the fuel the definition uses. -/
theorem mem_findAvailableSlots (req : ScheduleRequest)
    (events : List (String × List CalendarEvent)) (s : TimeSlot) :
    s ∈ findAvailableSlots req events ↔
      ∃ k : Nat, s.start = req.timeRange.start + 15 * (k : Int) ∧
        s.stop = s.start + req.durationMinutes ∧ s.score = 0 ∧
        s.start < req.timeRange.stop ∧ s.stop < req.timeRange.stop ∧
        isSlotAvailable s.start s.stop events = true := by
  exact mem_findSlotsAux req.timeRange.stop req.durationMinutes events _
    req.timeRange.start (by omega) s

/-- `findAvailableSlots` is strictly ascending in start time. -/
theorem findAvailableSlots_pairwise (req : ScheduleRequest)
    (events : List (String × List CalendarEvent)) :
    List.Pairwise (fun a b : TimeSlot => a.start < b.start)
      (findAvailableSlots req events) :=
  (findSlotsAux_sorted req.timeRange.stop req.durationMinutes events _
    req.timeRange.start).1

/-- The head of a list sorted descending by score bounds every element's
score. -/
theorem sortedDesc_head_max :
    ∀ (l : List TimeSlot) (s : TimeSlot), scoreSortedDesc l →
      l.head? = some s → ∀ t ∈ l, t.score ≤ s.score := by
  intro l
  induction l with
  | nil => intro s _ h; simp at h
  | cons a rest ih =>
    intro s hsorted hhead t ht
    simp only [List.head?_cons, Option.some.injEq] at hhead
    subst hhead
    rcases List.mem_cons.mp ht with rfl | htrest
    · exact le_refl _
    · match rest, htrest with
      | b :: rest2, htrest =>
        rw [scoreSortedDesc, List.chain'_cons] at hsorted
        exact le_trans (ih b hsorted.2 rfl t htrest) hsorted.1

/-- Every possible result of the modelled sort is a permutation of its
input sorted descending by score. -/
theorem sortSliceByScore_spec (l result : List TimeSlot)
    (h : sortSliceByScore l result) :
    result.Perm l ∧ scoreSortedDesc result := by
  rcases h with ⟨hs, rfl⟩ | ⟨-, hperm, hsorted⟩
  · exact ⟨List.Perm.refl _, hs⟩
  · exact ⟨hperm, hsorted⟩

/-- Constructing a `FindOptimalSlot` run when the scored candidates are
already sorted: the result is the head of the scored list. -/
theorem FindOptimalSlot_of_sorted (req : ScheduleRequest)
    (events : List (String × List CalendarEvent)) (s : TimeSlot)
    (hne : findAvailableSlots req events ≠ [])
    (hsorted : scoreSortedDesc (scoreSlots (findAvailableSlots req events) events))
    (hhead : (scoreSlots (findAvailableSlots req events) events).head? = some s) :
    FindOptimalSlot req events (some s, none) :=
  Or.inr ⟨hne, _, Or.inl ⟨hsorted, rfl⟩, s, hhead, rfl⟩


/-! ## Concrete fixtures -/

/-- Scenario A of the spec and the repository's own test: window
09:00 to 17:00 (minutes 540 to 1020 of the day), duration 60 minutes, one
participant with no busy intervals. -/
def caseAReq : ScheduleRequest :=
  { participantIDs := ["user1"], durationMinutes := 60,
    timeRange := { start := 540, stop := 1020 }, title := "" }

def caseAEvents : List (String × List CalendarEvent) := [("user1", [])]

def caseAAvail : List TimeSlot :=
  [⟨540, 600, 0⟩, ⟨555, 615, 0⟩, ⟨570, 630, 0⟩, ⟨585, 645, 0⟩,
   ⟨600, 660, 0⟩, ⟨615, 675, 0⟩, ⟨630, 690, 0⟩, ⟨645, 705, 0⟩,
   ⟨660, 720, 0⟩, ⟨675, 735, 0⟩, ⟨690, 750, 0⟩, ⟨705, 765, 0⟩,
   ⟨720, 780, 0⟩, ⟨735, 795, 0⟩, ⟨750, 810, 0⟩, ⟨765, 825, 0⟩,
   ⟨780, 840, 0⟩, ⟨795, 855, 0⟩, ⟨810, 870, 0⟩, ⟨825, 885, 0⟩,
   ⟨840, 900, 0⟩, ⟨855, 915, 0⟩, ⟨870, 930, 0⟩, ⟨885, 945, 0⟩,
   ⟨900, 960, 0⟩, ⟨915, 975, 0⟩, ⟨930, 990, 0⟩, ⟨945, 1005, 0⟩]

theorem caseA_avail : findAvailableSlots caseAReq caseAEvents = caseAAvail := by
  decide

theorem caseA_sorted :
    scoreSortedDesc (scoreSlots caseAAvail caseAEvents) := by
  norm_num [scoreSortedDesc, scoreSlots, caseAAvail, caseAEvents,
    List.chain'_cons, calculateSlotScore, workingHoursScore, earlySlotScore,
    gapMinimizationScore, bufferTimeScore, instantHour, workingHoursWeight,
    earlySlotWeight, gapMinimizationWeight, bufferTimeWeight, workDayStart,
    workDayEnd]

theorem caseA_head :
    (scoreSlots caseAAvail caseAEvents).head? = some ⟨540, 600, 14/5⟩ := by
  norm_num [scoreSlots, caseAAvail, caseAEvents, calculateSlotScore,
    workingHoursScore, earlySlotScore, gapMinimizationScore, bufferTimeScore,
    instantHour, workingHoursWeight, earlySlotWeight, gapMinimizationWeight,
    bufferTimeWeight, workDayStart, workDayEnd]

/-- The Scenario A run of `FindOptimalSlot`: the scored candidates are
already descending, so the modelled sort leaves them in place and the
9:00 slot (score 2.8) is selected. -/
theorem caseA_run :
    FindOptimalSlot caseAReq caseAEvents (some ⟨540, 600, 14/5⟩, none) := by
  apply FindOptimalSlot_of_sorted
  · rw [caseA_avail]; simp [caseAAvail]
  · rw [caseA_avail]; exact caseA_sorted
  · rw [caseA_avail]; exact caseA_head

/-- A tie-break fixture: window 08:00 to 10:45 (minutes 480 to 645),
duration 60, no participants in the events map.  The four hour-8 slots
score 1.5 and the three hour-9 slots score 2.8, so the scored candidate
list is not descending and three candidates tie on the maximal score. -/
def tieReq : ScheduleRequest :=
  { participantIDs := ["u"], durationMinutes := 60,
    timeRange := { start := 480, stop := 645 }, title := "" }

def tieAvail : List TimeSlot :=
  [⟨480, 540, 0⟩, ⟨495, 555, 0⟩, ⟨510, 570, 0⟩, ⟨525, 585, 0⟩,
   ⟨540, 600, 0⟩, ⟨555, 615, 0⟩, ⟨570, 630, 0⟩]

/-- The low-scoring hour-8 portion of the scored tie fixture. -/
def tieLow : List TimeSlot :=
  [⟨480, 540, 3/2⟩, ⟨495, 555, 3/2⟩, ⟨510, 570, 3/2⟩, ⟨525, 585, 3/2⟩]

def tieScored : List TimeSlot :=
  tieLow ++ [⟨540, 600, 14/5⟩, ⟨555, 615, 14/5⟩, ⟨570, 630, 14/5⟩]

/-- A descending reordering of `tieScored` in which the 9:15 slot comes
first: also a legitimate result of the modelled unstable sort. -/
def tieSortedAlt : List TimeSlot :=
  [⟨555, 615, 14/5⟩, ⟨540, 600, 14/5⟩, ⟨570, 630, 14/5⟩] ++ tieLow

/-- The earliest-first descending reordering of `tieScored`. -/
def tieSortedStable : List TimeSlot :=
  [⟨540, 600, 14/5⟩, ⟨555, 615, 14/5⟩, ⟨570, 630, 14/5⟩] ++ tieLow

theorem tie_avail : findAvailableSlots tieReq [] = tieAvail := by
  decide

theorem tie_scored : scoreSlots tieAvail [] = tieScored := by
  norm_num [scoreSlots, tieAvail, tieScored, tieLow, calculateSlotScore,
    workingHoursScore, earlySlotScore, gapMinimizationScore, bufferTimeScore,
    instantHour, workingHoursWeight, earlySlotWeight, gapMinimizationWeight,
    bufferTimeWeight, workDayStart, workDayEnd]

theorem tie_not_sorted : ¬ scoreSortedDesc tieScored := by
  norm_num [scoreSortedDesc, tieScored, tieLow, List.chain'_cons]

theorem tie_alt_sorted : scoreSortedDesc tieSortedAlt := by
  norm_num [scoreSortedDesc, tieSortedAlt, tieLow, List.chain'_cons]

theorem tie_stable_sorted : scoreSortedDesc tieSortedStable := by
  norm_num [scoreSortedDesc, tieSortedStable, tieLow, List.chain'_cons]

theorem tie_alt_perm : tieSortedAlt.Perm tieScored := by
  unfold tieSortedAlt tieScored
  exact ((List.Perm.swap ⟨540, 600, 14/5⟩ ⟨555, 615, 14/5⟩
    [⟨570, 630, 14/5⟩]).append_right tieLow).trans List.perm_append_comm

theorem tie_stable_perm : tieSortedStable.Perm tieScored := by
  unfold tieSortedStable tieScored
  exact List.perm_append_comm

/-- The modelled `FindOptimalSlot` admits the 9:15 slot on the tie
fixture: the unstable sort may order the tied maximal scores this way. -/
theorem tie_run_alt :
    FindOptimalSlot tieReq [] (some ⟨555, 615, 14/5⟩, none) := by
  refine Or.inr ⟨?_, tieSortedAlt, ?_, ⟨555, 615, 14/5⟩, rfl, rfl⟩
  · rw [tie_avail]; simp [tieAvail]
  · rw [tie_avail, tie_scored]
    exact Or.inr ⟨tie_not_sorted, tie_alt_perm, tie_alt_sorted⟩

/-- The modelled `FindOptimalSlot` also admits the 9:00 slot on the tie
fixture. -/
theorem tie_run_stable :
    FindOptimalSlot tieReq [] (some ⟨540, 600, 14/5⟩, none) := by
  refine Or.inr ⟨?_, tieSortedStable, ?_, ⟨540, 600, 14/5⟩, rfl, rfl⟩
  · rw [tie_avail]; simp [tieAvail]
  · rw [tie_avail, tie_scored]
    exact Or.inr ⟨tie_not_sorted, tie_stable_perm, tie_stable_sorted⟩


/-! ## Selected-slot lemmas -/

/-- Any slot selected by a `FindOptimalSlot` run is one of the scored
candidates and its score is maximal among them. -/
theorem FindOptimalSlot_selected (req : ScheduleRequest)
    (events : List (String × List CalendarEvent))
    (out : Option TimeSlot × Option String) (s : TimeSlot)
    (h : FindOptimalSlot req events out) (hs : out.1 = some s) :
    s ∈ scoreSlots (findAvailableSlots req events) events ∧
    ∀ t ∈ scoreSlots (findAvailableSlots req events) events,
      t.score ≤ s.score := by
  rcases h with ⟨hemp, rfl⟩ | ⟨hne, sorted, hsort, t, hhead, rfl⟩
  · simp at hs
  · simp only [Option.some.injEq] at hs
    obtain ⟨hperm, hsorted⟩ := sortSliceByScore_spec _ _ hsort
    have hmem : t ∈ sorted := List.mem_of_mem_head? (by rw [hhead]; rfl)
    rw [← hs]
    refine ⟨hperm.mem_iff.mp hmem, fun t₂ ht₂ => ?_⟩
    exact sortedDesc_head_max sorted t hsorted hhead t₂ (hperm.mem_iff.mpr ht₂)

/-- C3 (amended).  Every slot returned by `FindOptimalSlot` is a scored
candidate of maximal score; because the sort is not guaranteed stable, the
earliest-start tie-break among equal maximal scores is not guaranteed
(see `C3_counterexample`). -/
theorem C3_max_score (req : ScheduleRequest)
    (events : List (String × List CalendarEvent))
    (out : Option TimeSlot × Option String) (s : TimeSlot)
    (h : FindOptimalSlot req events out) (hs : out.1 = some s) :
    s ∈ scoreSlots (findAvailableSlots req events) events ∧
    ∀ t ∈ scoreSlots (findAvailableSlots req events) events,
      t.score ≤ s.score :=
  FindOptimalSlot_selected req events out s h hs

/-- C3, refuted as stated: on the tie fixture the unstable sort may
select the 9:15 slot although the 9:00 slot ties on the maximal score and
starts earlier. -/
theorem C3_counterexample :
    ¬ (∀ (out : Option TimeSlot × Option String) (s : TimeSlot),
        FindOptimalSlot tieReq [] out → out.1 = some s →
        ∀ t ∈ scoreSlots (findAvailableSlots tieReq []) [],
          t.score = s.score → s.start ≤ t.start) := by
  intro h
  have h540 : (⟨540, 600, 14/5⟩ : TimeSlot) ∈
      scoreSlots (findAvailableSlots tieReq []) [] := by
    rw [tie_avail, tie_scored]
    simp [tieScored, tieLow]
  have hle := h (some ⟨555, 615, 14/5⟩, none) ⟨555, 615, 14/5⟩ tie_run_alt rfl
    ⟨540, 600, 14/5⟩ h540 rfl
  norm_num at hle

/-- Witness for C3's amended theorem at Scenario A. -/
theorem C3_witness :
    (⟨540, 600, 14/5⟩ : TimeSlot) ∈
      scoreSlots (findAvailableSlots caseAReq caseAEvents) caseAEvents ∧
    ∀ t ∈ scoreSlots (findAvailableSlots caseAReq caseAEvents) caseAEvents,
      t.score ≤ (⟨540, 600, 14/5⟩ : TimeSlot).score :=
  C3_max_score caseAReq caseAEvents (some ⟨540, 600, 14/5⟩, none)
    ⟨540, 600, 14/5⟩ caseA_run rfl

/-- C4 (amended).  `FindOptimalSlot` is deterministic whenever the scored
candidate list is already descending (in particular whenever no two
candidates tie); under ties in an unsorted scored list the unstable sort
leaves the selection unspecified (see `C4_counterexample`). -/
theorem C4_determinism_sorted (req : ScheduleRequest)
    (events : List (String × List CalendarEvent))
    (out₁ out₂ : Option TimeSlot × Option String)
    (hsorted : scoreSortedDesc (scoreSlots (findAvailableSlots req events) events))
    (h₁ : FindOptimalSlot req events out₁)
    (h₂ : FindOptimalSlot req events out₂) : out₁ = out₂ := by
  have hcan : ∀ sorted,
      sortSliceByScore (scoreSlots (findAvailableSlots req events) events) sorted →
      sorted = scoreSlots (findAvailableSlots req events) events := by
    rintro sorted (⟨-, rfl⟩ | ⟨hns, -, -⟩)
    · rfl
    · exact absurd hsorted hns
  rcases h₁ with ⟨he₁, rfl⟩ | ⟨hne₁, s₁, hs₁, t₁, hh₁, rfl⟩ <;>
    rcases h₂ with ⟨he₂, rfl⟩ | ⟨hne₂, s₂, hs₂, t₂, hh₂, rfl⟩
  · rfl
  · exact absurd he₁ hne₂
  · exact absurd he₂ hne₁
  · rw [hcan s₁ hs₁] at hh₁
    rw [hcan s₂ hs₂] at hh₂
    rw [hh₁] at hh₂
    rw [Option.some.inj hh₂]

/-- C4, refuted as stated: on the tie fixture both the 9:00 slot and the
9:15 slot are possible selections, so the selection under ties is not
determined. -/
theorem C4_counterexample :
    ¬ (∀ out₁ out₂ : Option TimeSlot × Option String,
        FindOptimalSlot tieReq [] out₁ → FindOptimalSlot tieReq [] out₂ →
        out₁ = out₂) := by
  intro h
  have heq := h _ _ tie_run_stable tie_run_alt
  simp only [Prod.mk.injEq, Option.some.injEq, TimeSlot.mk.injEq] at heq
  norm_num at heq

/-- Witness for C4's amended theorem at Scenario A. -/
theorem C4_witness :
    scoreSortedDesc (scoreSlots (findAvailableSlots caseAReq caseAEvents) caseAEvents) ∧
    ((some (⟨540, 600, 14/5⟩ : TimeSlot), (none : Option String)) =
      (some (⟨540, 600, 14/5⟩ : TimeSlot), (none : Option String))) :=
  ⟨by rw [caseA_avail]; exact caseA_sorted,
   C4_determinism_sorted caseAReq caseAEvents _ _
     (by rw [caseA_avail]; exact caseA_sorted) caseA_run caseA_run⟩

/-- C9.  On Scenario A (no busy intervals, window 09:00 to 17:00, duration
60 minutes) every `FindOptimalSlot` run selects the 09:00 to 10:00 slot:
the scored candidates are already descending, so the modelled sort
returns them unchanged and the head is forced. -/
theorem C9_scenarioA (out : Option TimeSlot × Option String)
    (h : FindOptimalSlot caseAReq caseAEvents out) :
    ∃ s, out.1 = some s ∧ s.start = 540 ∧ s.stop = 600 := by
  rcases h with ⟨he, rfl⟩ | ⟨hne, sorted, hsort, t, hhead, rfl⟩
  · rw [caseA_avail] at he
    simp [caseAAvail] at he
  · have hs : sorted = scoreSlots (findAvailableSlots caseAReq caseAEvents) caseAEvents := by
      rcases hsort with ⟨-, rfl⟩ | ⟨hns, -, -⟩
      · rfl
      · rw [caseA_avail] at hns
        exact absurd caseA_sorted hns
    rw [hs, caseA_avail, caseA_head] at hhead
    obtain rfl : t = ⟨540, 600, 14/5⟩ := (Option.some.inj hhead).symm
    exact ⟨⟨540, 600, 14/5⟩, rfl, rfl, rfl⟩

/-- Witness for C9 at the Scenario A run itself. -/
theorem C9_witness :
    ∃ s : TimeSlot,
      ((some (⟨540, 600, 14/5⟩ : TimeSlot), (none : Option String))).1 = some s ∧
      s.start = 540 ∧ s.stop = 600 :=
  C9_scenarioA (some ⟨540, 600, 14/5⟩, none) caseA_run


/-! ## Claim C1: the availability predicate and its boundary rule -/

/-- C1.  For a candidate `[start, stop]` and a busy interval `b`,
`isSlotAvailable` classifies the pair free exactly when
`stop < b.startTime` or `start > b.endTime`; consequently a candidate
touching the busy interval at either boundary (busy interval ending
exactly at the candidate's start, or starting exactly at its end) is
rejected. -/
theorem C1_availability (start stop : Int) (u : String) (b : CalendarEvent) :
    (isSlotAvailable start stop [(u, [b])] = true ↔
      (stop < b.startTime ∨ start > b.endTime)) ∧
    (b.startTime ≤ b.endTime → b.endTime = start → start ≤ stop →
      isSlotAvailable start stop [(u, [b])] = false) ∧
    (b.startTime ≤ b.endTime → b.startTime = stop → start ≤ stop →
      isSlotAvailable start stop [(u, [b])] = false) := by
  refine ⟨by simp [isSlotAvailable], ?_, ?_⟩
  · intro hwf hend hss
    rw [Bool.eq_false_iff, Ne, isSlotAvailable_iff]
    intro hall
    rcases hall (u, [b]) (by simp) b (by simp) with h | h <;> omega
  · intro hwf hstart hss
    rw [Bool.eq_false_iff, Ne, isSlotAvailable_iff]
    intro hall
    rcases hall (u, [b]) (by simp) b (by simp) with h | h <;> omega

/-- Witness for C1: a busy interval 10:00 to 11:00 rejects the candidate
11:00 to 12:00 (touching boundary). -/
theorem C1_witness :
    isSlotAvailable 660 720 [("u", [⟨"", "", 600, 660, "u"⟩])] = false :=
  (C1_availability 660 720 "u" ⟨"", "", 600, 660, "u"⟩).2.1 (by norm_num) rfl
    (by norm_num)

/-! ## Claim C2: the candidate enumeration -/

/-- C2.  The candidates produced by `findAvailableSlots` are exactly the
15-minute-grid starts in the window whose slot of `durationMinutes`
minutes ends strictly before the window's end and is free against every
busy interval of every participant; they are produced in ascending start
order; and every slot a `FindOptimalSlot` run returns satisfies the same
conditions. -/
theorem C2_enumeration (req : ScheduleRequest)
    (events : List (String × List CalendarEvent)) :
    (∀ s : TimeSlot, s ∈ findAvailableSlots req events ↔
      ∃ k : Nat, s.start = req.timeRange.start + 15 * (k : Int) ∧
        s.stop = s.start + req.durationMinutes ∧ s.score = 0 ∧
        s.start < req.timeRange.stop ∧ s.stop < req.timeRange.stop ∧
        ∀ p ∈ events, ∀ ev ∈ p.2, s.stop < ev.startTime ∨ ev.endTime < s.start) ∧
    List.Pairwise (fun a b : TimeSlot => a.start < b.start)
      (findAvailableSlots req events) ∧
    (∀ (out : Option TimeSlot × Option String) (s : TimeSlot),
      FindOptimalSlot req events out → out.1 = some s →
      ∃ k : Nat, s.start = req.timeRange.start + 15 * (k : Int) ∧
        s.stop = s.start + req.durationMinutes ∧
        s.start < req.timeRange.stop ∧ s.stop < req.timeRange.stop ∧
        ∀ p ∈ events, ∀ ev ∈ p.2, s.stop < ev.startTime ∨ ev.endTime < s.start) := by
  refine ⟨?_, findAvailableSlots_pairwise req events, ?_⟩
  · intro s
    rw [mem_findAvailableSlots]
    constructor
    · rintro ⟨k, h1, h2, h3, h4, h5, h6⟩
      exact ⟨k, h1, h2, h3, h4, h5, (isSlotAvailable_iff _ _ _).mp h6⟩
    · rintro ⟨k, h1, h2, h3, h4, h5, h6⟩
      exact ⟨k, h1, h2, h3, h4, h5, (isSlotAvailable_iff _ _ _).mpr h6⟩
  · intro out s hrun hsel
    obtain ⟨hmem, -⟩ := FindOptimalSlot_selected req events out s hrun hsel
    rw [scoreSlots, List.mem_map] at hmem
    obtain ⟨t, ht, rfl⟩ := hmem
    rw [mem_findAvailableSlots] at ht
    obtain ⟨k, h1, h2, h3, h4, h5, h6⟩ := ht
    exact ⟨k, h1, h2, h4, h5, (isSlotAvailable_iff _ _ _).mp h6⟩

/-- Witness for C2's returned-slot conditions at the Scenario A run. -/
theorem C2_witness :
    ∃ k : Nat, (⟨540, 600, 14/5⟩ : TimeSlot).start =
        caseAReq.timeRange.start + 15 * (k : Int) ∧
      (⟨540, 600, 14/5⟩ : TimeSlot).stop =
        (⟨540, 600, 14/5⟩ : TimeSlot).start + caseAReq.durationMinutes ∧
      (⟨540, 600, 14/5⟩ : TimeSlot).start < caseAReq.timeRange.stop ∧
      (⟨540, 600, 14/5⟩ : TimeSlot).stop < caseAReq.timeRange.stop ∧
      ∀ p ∈ caseAEvents, ∀ ev ∈ p.2,
        (⟨540, 600, 14/5⟩ : TimeSlot).stop < ev.startTime ∨
        ev.endTime < (⟨540, 600, 14/5⟩ : TimeSlot).start :=
  (C2_enumeration caseAReq caseAEvents).2.2 (some ⟨540, 600, 14/5⟩, none)
    ⟨540, 600, 14/5⟩ caseA_run rfl

/-! ## Claim C7: the composite score and the hour-based sub-scores -/

/-- C7.  The composite score is
`1.0 * workingHours + 0.8 * earlySlot + 0.6 * gapMinimization +
0.4 * bufferTime`, where `workingHours` is 1 for start hour in `[9,17)`,
one half for hour in `[8,9)` or `[17,18)`, else 0, and `earlySlot` is
`1 - (hour - 9)/8` for hour in `[9,17]` inclusive, else 0. -/
theorem C7_composite_score (slot : TimeSlot)
    (events : List (String × List CalendarEvent)) :
    calculateSlotScore slot events =
      1 * workingHoursScore slot + (8 : ℚ)/10 * earlySlotScore slot
      + (6 : ℚ)/10 * gapMinimizationScore slot events
      + (4 : ℚ)/10 * bufferTimeScore slot events ∧
    workingHoursScore slot =
      (if 9 ≤ instantHour slot.start ∧ instantHour slot.start < 17 then 1
       else if (8 ≤ instantHour slot.start ∧ instantHour slot.start < 9) ∨
           (17 ≤ instantHour slot.start ∧ instantHour slot.start < 18) then 1/2
       else 0) ∧
    earlySlotScore slot =
      (if 9 ≤ instantHour slot.start ∧ instantHour slot.start ≤ 17 then
        1 - ((instantHour slot.start : ℚ) - 9) / 8
       else 0) := by
  refine ⟨?_, ?_, ?_⟩
  · rw [calculateSlotScore, workingHoursWeight, earlySlotWeight,
      gapMinimizationWeight, bufferTimeWeight]
    norm_num
    ring
  · rw [workingHoursScore, workDayStart, workDayEnd]
    norm_num
  · rw [earlySlotScore, workDayStart, workDayEnd]
    split_ifs with h1 h2 h2
    · norm_num
    · exact absurd ⟨by exact_mod_cast h1.1, by exact_mod_cast h1.2⟩ h2
    · exact absurd ⟨by exact_mod_cast h2.1, by exact_mod_cast h2.2⟩ h1
    · norm_num


/-! ## Claim C8: the gap and buffer folds -/

/-- Written from the spec's §4.4 wording, for comparison with the code's
`gapMinimizationScore`: each qualifying busy interval (one that ends
before the candidate starts, or starts after the candidate ends)
contributes exactly one multiplicative factor, from its single gap to the
candidate. -/
def specGapFactor (slot : TimeSlot) (score : ℚ) (event : CalendarEvent) : ℚ :=
  if event.endTime < slot.start then
    (let gap := slot.start - event.endTime
     if gap < 15 then score * 0.5 else if 60 < gap then score * 0.8 else score)
  else if slot.stop < event.startTime then
    (let gap := event.startTime - slot.stop
     if gap < 15 then score * 0.5 else if 60 < gap then score * 0.8 else score)
  else score

/-- The spec's §4.4 `gapMinimization`: per-participant fold of
`specGapFactor` from 1, averaged, defaulting to 1. -/
def specGapMinimization (slot : TimeSlot)
    (events : List (String × List CalendarEvent)) : ℚ :=
  if events.length = 0 then 1
  else (events.map fun userEvents =>
    userEvents.2.foldl (specGapFactor slot) 1).sum / (events.length : ℚ)

/-- Written from the spec's §4.4 wording for `bufferTime`: one factor per
qualifying busy interval, `gap / 15` when the gap is below 15 minutes. -/
def specBufferFactor (slot : TimeSlot) (score : ℚ) (event : CalendarEvent) : ℚ :=
  if event.endTime < slot.start then
    (let gap := slot.start - event.endTime
     if gap < 15 then score * ((gap : ℚ) / 15) else score)
  else if slot.stop < event.startTime then
    (let gap := event.startTime - slot.stop
     if gap < 15 then score * ((gap : ℚ) / 15) else score)
  else score

/-- The spec's §4.4 `bufferTime`: per-participant fold of
`specBufferFactor` from 1, averaged, defaulting to 1. -/
def specBufferTime (slot : TimeSlot)
    (events : List (String × List CalendarEvent)) : ℚ :=
  if events.length = 0 then 1
  else (events.map fun userEvents =>
    userEvents.2.foldl (specBufferFactor slot) 1).sum / (events.length : ℚ)

/-- C8.  On well-formed data (candidate start not after its end, every
busy interval's start not after its end — at most one side of the slot
can qualify per interval) the code's `gapMinimizationScore` and
`bufferTimeScore` are exactly the spec's one-factor-per-interval folds
averaged over participants, and both default to 1 on the empty events
mapping. -/
theorem C8_gap_buffer (slot : TimeSlot)
    (events : List (String × List CalendarEvent))
    (hslot : slot.start ≤ slot.stop)
    (hwf : ∀ p ∈ events, ∀ ev ∈ p.2, ev.startTime ≤ ev.endTime) :
    gapMinimizationScore slot events = specGapMinimization slot events ∧
    bufferTimeScore slot events = specBufferTime slot events ∧
    gapMinimizationScore slot [] = 1 ∧ bufferTimeScore slot [] = 1 := by
  refine ⟨?_, ?_, by norm_num [gapMinimizationScore],
    by norm_num [bufferTimeScore]⟩
  · rw [gapMinimizationScore, specGapMinimization]
    by_cases hlen : events.length = 0
    · rw [if_pos hlen, if_pos hlen]
      norm_num
    · rw [if_neg hlen, if_neg hlen]
      congr 1
      congr 1
      rw [show (1.0 : ℚ) = 1 from by norm_num]
      apply List.map_congr_left
      intro ue hue
      dsimp only
      apply List.foldl_ext
      intro a ev hev
      have hwfe := hwf ue hue ev hev
      by_cases h1 : ev.endTime < slot.start
      · have h2 : ¬ slot.stop < ev.startTime := by omega
        simp only [specGapFactor, desiredBufferTime, if_pos h1, if_neg h2]
      · simp only [specGapFactor, desiredBufferTime, if_neg h1]
  · rw [bufferTimeScore, specBufferTime]
    by_cases hlen : events.length = 0
    · rw [if_pos hlen, if_pos hlen]
      norm_num
    · rw [if_neg hlen, if_neg hlen]
      congr 1
      congr 1
      rw [show (1.0 : ℚ) = 1 from by norm_num]
      apply List.map_congr_left
      intro ue hue
      dsimp only
      apply List.foldl_ext
      intro a ev hev
      have hwfe := hwf ue hue ev hev
      by_cases h1 : ev.endTime < slot.start
      · have h2 : ¬ slot.stop < ev.startTime := by omega
        simp only [specBufferFactor, desiredBufferTime, if_pos h1, if_neg h2]
        norm_num
      · simp only [specBufferFactor, desiredBufferTime, if_neg h1]
        norm_num

/-- Witness for C8: a slot 10:00 to 11:00 with one participant whose busy
interval 08:20 to 09:00 leaves a 60-minute gap. -/
theorem C8_witness :
    gapMinimizationScore ⟨600, 660, 0⟩ [("u", [⟨"", "", 500, 540, "u"⟩])] =
      specGapMinimization ⟨600, 660, 0⟩ [("u", [⟨"", "", 500, 540, "u"⟩])] ∧
    bufferTimeScore ⟨600, 660, 0⟩ [("u", [⟨"", "", 500, 540, "u"⟩])] =
      specBufferTime ⟨600, 660, 0⟩ [("u", [⟨"", "", 500, 540, "u"⟩])] ∧
    gapMinimizationScore ⟨600, 660, 0⟩ [] = 1 ∧
    bufferTimeScore ⟨600, 660, 0⟩ [] = 1 :=
  C8_gap_buffer ⟨600, 660, 0⟩ [("u", [⟨"", "", 500, 540, "u"⟩])]
    (by norm_num) (by decide)


/-! ## Claim C5: the validator's check order -/

/-- C5 (amended).  `validateScheduleRequest` checks the participant set in
a single left-to-right pass in which each identifier is tested for
emptiness and then for duplication, so a duplicate occurring no later than
the first empty identifier is reported as a duplicate; and a request with
`start = end` passes the strict `Start.After(End)` check (check 6) and,
when every other check passes, is rejected by the duration-fit check
(check 9), not by check 6. -/
theorem C5_validation_order :
    (∀ (req : ScheduleRequest) (now : Int) (x : String) (rest : List String),
      req.participantIDs = x :: x :: rest → x ≠ "" →
      validateScheduleRequest req now =
        some "duplicate participant IDs are not allowed") ∧
    (∀ (req : ScheduleRequest) (now : Int),
      req.timeRange.start = req.timeRange.stop →
      req.participantIDs ≠ [] →
      checkParticipants [] req.participantIDs = none →
      0 < req.durationMinutes → req.durationMinutes ≤ 480 →
      req.timeRange.start ≠ 0 → now ≤ req.timeRange.start →
      req.timeRange.stop ≤ now + oneYearMinutes →
      validateScheduleRequest req now =
        some "duration does not fit within the specified time range" ∧
      validateScheduleRequest req now ≠
        some "start time must be before end time") := by
  constructor
  · intro req now x rest hps hx
    unfold validateScheduleRequest
    rw [hps]
    simp [checkParticipants, hx]
  · intro req now hse hne hchk hd0 hd480 hs0 hnow hyear
    have hval : validateScheduleRequest req now =
        some "duration does not fit within the specified time range" := by
      unfold validateScheduleRequest
      rw [if_neg (fun h => hne (List.length_eq_zero.mp h))]
      rw [hchk]
      rw [if_neg (by omega), if_neg (by omega), if_neg hs0, if_neg (by omega),
        if_neg (by omega), if_neg (by omega), if_neg (not_lt.mpr hyear),
        if_pos (by omega)]
    refine ⟨hval, ?_⟩
    intro hcontra
    rw [hval] at hcontra
    exact absurd (Option.some.inj hcontra) (by decide)

/-- C5, refuted as stated: a duplicate occurring before the empty
identifier is reported as a duplicate (the empty-identifier check does not
scan the whole set first), and a request with `start = end` is rejected by
the duration-fit message, not the check-6 message. -/
theorem C5_counterexample :
    validateScheduleRequest
      { participantIDs := ["a", "a", ""], durationMinutes := 60,
        timeRange := { start := 1500, stop := 3000 }, title := "" } 1000 =
      some "duplicate participant IDs are not allowed" ∧
    validateScheduleRequest
      { participantIDs := ["a"], durationMinutes := 60,
        timeRange := { start := 2000, stop := 2000 }, title := "" } 1000 =
      some "duration does not fit within the specified time range" := by
  constructor <;> decide

/-- Witness for C5's amended theorem at concrete requests. -/
theorem C5_witness :
    validateScheduleRequest
      { participantIDs := ["b", "b", "c"], durationMinutes := 30,
        timeRange := { start := 100, stop := 200 }, title := "" } 0 =
      some "duplicate participant IDs are not allowed" ∧
    (validateScheduleRequest
      { participantIDs := ["a"], durationMinutes := 60,
        timeRange := { start := 2000, stop := 2000 }, title := "" } 1500 =
      some "duration does not fit within the specified time range" ∧
     validateScheduleRequest
      { participantIDs := ["a"], durationMinutes := 60,
        timeRange := { start := 2000, stop := 2000 }, title := "" } 1500 ≠
      some "start time must be before end time") :=
  ⟨C5_validation_order.1 _ 0 "b" ["c"] rfl (by decide),
   C5_validation_order.2 _ 1500 rfl (by decide) (by decide) (by decide)
     (by decide) (by decide) (by decide) (by decide)⟩

/-! ## Claim C10: a duration that exactly fills the window -/

/-- C10.  When `start + duration = end`, the validator accepts the request
(whenever its other checks pass — the fit check uses a strict `After`),
yet the strict `slotEnd.Before(end)` bound excludes the only grid slot
that fits, so the candidate set is empty for every busy-interval mapping
and `FindOptimalSlot` always gives the no-slot result. -/
theorem C10_full_window (req : ScheduleRequest)
    (events : List (String × List CalendarEvent)) (now : Int)
    (hfill : req.timeRange.start + req.durationMinutes = req.timeRange.stop) :
    findAvailableSlots req events = [] ∧
    (∀ out, FindOptimalSlot req events out → out = (none, none)) ∧
    (req.participantIDs ≠ [] → checkParticipants [] req.participantIDs = none →
     0 < req.durationMinutes → req.durationMinutes ≤ 480 → 0 < now →
     now ≤ req.timeRange.start → req.timeRange.stop ≤ now + oneYearMinutes →
     validateScheduleRequest req now = none) := by
  have hempty : findAvailableSlots req events = [] := by
    rw [List.eq_nil_iff_forall_not_mem]
    intro s hs
    rw [mem_findAvailableSlots] at hs
    obtain ⟨k, hstart, hstop, -, -, hstop2, -⟩ := hs
    have hk : (0 : Int) ≤ 15 * (k : Int) := by positivity
    omega
  refine ⟨hempty, ?_, ?_⟩
  · intro out h
    rcases h with ⟨-, rfl⟩ | ⟨hne, -⟩
    · rfl
    · exact absurd hempty hne
  · intro hne hchk hd0 hd480 hnow0 hnow hyear
    unfold validateScheduleRequest
    rw [if_neg (fun h => hne (List.length_eq_zero.mp h))]
    rw [hchk]
    rw [if_neg (by omega), if_neg (by omega), if_neg (by omega),
      if_neg (by omega), if_neg (by omega), if_neg (by omega),
      if_neg (not_lt.mpr hyear), if_neg (by omega)]

/-- Witness for C10 at a concrete full-window request. -/
theorem C10_witness :
    findAvailableSlots
      { participantIDs := ["a"], durationMinutes := 60,
        timeRange := { start := 1440, stop := 1500 }, title := "" } [] = [] ∧
    validateScheduleRequest
      { participantIDs := ["a"], durationMinutes := 60,
        timeRange := { start := 1440, stop := 1500 }, title := "" } 1000 =
      none :=
  ⟨(C10_full_window _ [] 1000 rfl).1,
   (C10_full_window _ [] 1000 rfl).2.2 (by decide) (by decide) (by decide)
     (by decide) (by decide) (by decide) (by decide)⟩

/-! ## Claim C6: the two result kinds and their separation -/

/-- A `FindOptimalSlot` run never carries an error, and carries no slot
exactly when the candidate set is empty. -/
theorem FindOptimalSlot_outcome (req : ScheduleRequest)
    (events : List (String × List CalendarEvent))
    (out : Option TimeSlot × Option String)
    (h : FindOptimalSlot req events out) :
    out.2 = none ∧ (out.1 = none ↔ findAvailableSlots req events = []) := by
  rcases h with ⟨hemp, rfl⟩ | ⟨hne, sorted, hsort, t, hhead, rfl⟩
  · exact ⟨rfl, by simp [hemp]⟩
  · exact ⟨rfl, by simp [hne]⟩

/-- C6.  `FindOptimalSlot` returns a nil error for every input and a nil
slot exactly when the candidate set is empty; `Schedule` surfaces the nil
slot as the distinct `noAvailableSlot` outcome (a different constructor
from every validation error), and surfaces a validation failure before
any search: if validation fails, the outcome is that validation error no
matter what the repository holds. -/
theorem C6_error_model :
    (∀ (req : ScheduleRequest) (events : List (String × List CalendarEvent))
        (out : Option TimeSlot × Option String),
      FindOptimalSlot req events out →
      out.2 = none ∧ (out.1 = none ↔ findAvailableSlots req events = [])) ∧
    (∀ e, SchedErr.noAvailableSlot ≠ SchedErr.validation e) ∧
    (∀ (repo : Repository) (now : Int) (newID : String)
        (genEventID : String → String) (req : ScheduleRequest)
        (outcome : Except SchedErr ScheduleResponse) (e : String),
      Schedule repo now newID genEventID req outcome →
      validateScheduleRequest req now = some e →
      outcome = Except.error (SchedErr.validation e)) ∧
    (∀ (repo : Repository) (now : Int) (newID : String)
        (genEventID : String → String) (req : ScheduleRequest)
        (outcome : Except SchedErr ScheduleResponse)
        (allEvents : List (String × List CalendarEvent)),
      Schedule repo now newID genEventID req outcome →
      validateScheduleRequest req now = none →
      (req.participantIDs.all fun u => (repo.getUser u).isSome) = true →
      fetchAllEvents repo req = some allEvents →
      findAvailableSlots req allEvents = [] →
      outcome = Except.error SchedErr.noAvailableSlot) := by
  refine ⟨FindOptimalSlot_outcome, ?_, ?_, ?_⟩
  · intro e h
    exact SchedErr.noConfusion h
  · intro repo now newID genEventID req outcome e hsched hval
    simp only [Schedule, hval] at hsched
    exact hsched
  · intro repo now newID genEventID req outcome allEvents hsched hval hall
      hfetch hempty
    simp only [Schedule, hval, hall, eq_self_iff_true, if_true, hfetch]
      at hsched
    obtain ⟨res, err, hrel, hrest⟩ := hsched
    obtain ⟨herr, hiff⟩ := FindOptimalSlot_outcome req allEvents (res, err) hrel
    simp only at herr hiff
    subst herr
    have hres : res = none := hiff.mpr hempty
    subst hres
    exact hrest

/-- The service oracle used by C6's witness: every user exists, has no
events, and event creation succeeds. -/
def repoW : Repository :=
  { getUser := fun _ => some { id := "a", name := "Alice" },
    getUserEvents := fun _ _ _ => some [],
    createEvent := fun _ => true }

/-- A well-formed request whose duration exactly fills the window, so the
search finds nothing. -/
def reqW : ScheduleRequest :=
  { participantIDs := ["a"], durationMinutes := 60,
    timeRange := { start := 1440, stop := 1500 }, title := "" }

/-- The concrete `Schedule` run behind C6's witness: the request is valid
but unsatisfiable, so the outcome is `noAvailableSlot`. -/
theorem reqW_noslot_run :
    Schedule repoW 1000 "m" (fun _ => "evt") reqW
      (Except.error SchedErr.noAvailableSlot) := by
  simp only [Schedule,
    show validateScheduleRequest reqW 1000 = none from by decide,
    show (reqW.participantIDs.all fun u => (repoW.getUser u).isSome) = true
      from by decide,
    eq_self_iff_true, if_true,
    show fetchAllEvents repoW reqW = some [("a", [])] from by decide]
  exact ⟨none, none, Or.inl ⟨by decide, rfl⟩, trivial⟩

/-- Witness for C6 at the concrete no-slot run. -/
theorem C6_witness :
    (Except.error SchedErr.noAvailableSlot :
        Except SchedErr ScheduleResponse) =
      Except.error SchedErr.noAvailableSlot ∧
    ((none : Option TimeSlot), (none : Option String)).2 = none :=
  ⟨C6_error_model.2.2.2 repoW 1000 "m" (fun _ => "evt") reqW _ [("a", [])]
      reqW_noslot_run (by decide) (by decide) (by decide) (by decide),
   (C6_error_model.1 reqW [("a", [])] (none, none)
      (Or.inl ⟨by decide, rfl⟩)).1⟩

end MeetingScheduler
